import Mathlib

/-!
Shallow embedding of the roverpro-python session layer (`src/openrover/rover.py`)
and the CLI helper (`src/openrover/pitstop.py`).

Modelling conventions:
* Motor speeds are rationals (the Python code uses floats; the session layer only
  compares them against the bounds -1, 0, 1 and multiplies by 240, all exact).
* The protocol channel (`openrover_protocol.py`, not part of the available source)
  is modelled at its boundary, as the spec describes it: `write_nowait` appends a
  command frame to the outgoing queue, `read_one` consumes the next decoded
  `(key, value)` response.  Pending responses are a list; each carries the delay
  before it becomes available, so that `trio.fail_after(t)` around a read is
  modelled as: the read succeeds iff a response is pending and its delay fits in
  the remaining budget `t`, otherwise the wait raises a timeout and consumes
  nothing.
* Python exceptions become an error sum type; each session operation returns the
  post-state (at the point of the raise, for errors) together with
  `Except RoverError result`.
-/

deriving instance DecidableEq for Except

namespace OpenRover

/-- Command verbs used by the session layer (`CommandVerbs` in
`openrover_protocol.py`). Only the identity of each verb matters to the session
layer; the numeric wire codes of these verbs are not used by `rover.py` except
for `FLIPPER_CALIBRATE`'s sentinel argument, kept abstract below. -/
inductive CommandVerb
  | NOP
  | GET_DATA
  | SET_FAN_SPEED
  | FLIPPER_CALIBRATE
  | RESTART
  | RELOAD_SETTINGS
  | COMMIT_SETTINGS
  deriving DecidableEq, Repr

/-- One outgoing command frame as handed to `OpenRoverProtocol.write_nowait`:
motor triple, verb and argument. -/
structure Frame where
  motor_left : ℚ
  motor_right : ℚ
  motor_flipper : ℚ
  cmd : CommandVerb
  arg : ℤ
  deriving DecidableEq, Repr

/-- One pending decoded response for `read_one`: the delay until it is
available, the telemetry key and the decoded value (kept opaque as an
integer). -/
structure Response where
  delay : ℚ
  key : ℕ
  data : ℤ
  deriving DecidableEq, Repr

/-- Modelled from the spec: `int(CommandVerbs.FLIPPER_CALIBRATE)`, the fixed
sentinel argument of the calibration command.  The enum's numeric values are not
in the available source and no claim depends on this value. -/
def flipperCalibrateCode : ℤ := 250

/-- Errors a session-layer operation can raise. -/
inductive RoverError
  | assertionError
  | tooSlow
  | unexpectedData (expected : ℕ) (received : ℕ) (data : ℤ)
  | noVersionResponse
  deriving DecidableEq, Repr

/-- State of a `Rover` object together with its protocol channel: the stored
motor triple (`_motor_left`, `_motor_right`, `_motor_flipper`), the frames
queued so far (in order) and the pending decoded responses. -/
structure RoverState where
  motor_left : ℚ := 0
  motor_right : ℚ := 0
  motor_flipper : ℚ := 0
  sent : List Frame := []
  incoming : List Response := []
  deriving DecidableEq, Repr

/-- `OpenRoverProtocol.write_nowait`: queue one frame, return immediately. -/
def write_nowait (s : RoverState) (l r f : ℚ) (cmd : CommandVerb) (arg : ℤ) :
    RoverState :=
  { s with sent := s.sent ++ [⟨l, r, f, cmd, arg⟩] }

/-- `await read_one()` wrapped in `trio.fail_after deadline`: if the next
response arrives within the deadline it is consumed and returned; otherwise the
wait times out, consuming nothing. -/
def read_one_within (deadline : ℚ) (s : RoverState) :
    RoverState × Except RoverError (ℕ × ℤ) :=
  match s.incoming with
  | [] => (s, .error .tooSlow)
  | resp :: rest =>
    if resp.delay ≤ deadline then
      ({ s with incoming := rest }, .ok (resp.key, resp.data))
    else
      (s, .error .tooSlow)

/-- `Rover._send_command`: every frame is written with the *current* stored
motor triple. -/
def send_command (s : RoverState) (cmd : CommandVerb) (arg : ℤ) : RoverState :=
  write_nowait s s.motor_left s.motor_right s.motor_flipper cmd arg

/-- `Rover.set_motor_speeds`: three `assert -1 <= x <= 1` checks, in order
left, right, flipper, before any field is assigned; then all three fields are
updated.  An assertion failure raises before any update. -/
def set_motor_speeds (s : RoverState) (left right flipper : ℚ) :
    RoverState × Except RoverError Unit :=
  if -1 ≤ left ∧ left ≤ 1 then
    if -1 ≤ right ∧ right ≤ 1 then
      if -1 ≤ flipper ∧ flipper ≤ 1 then
        ({ s with motor_left := left, motor_right := right,
                  motor_flipper := flipper }, .ok ())
      else (s, .error .assertionError)
    else (s, .error .assertionError)
  else (s, .error .assertionError)

/-- `Rover.send_speed`: the NOP heartbeat carrying only the motor state. -/
def send_speed (s : RoverState) : RoverState :=
  send_command s .NOP 0

/-- Python `int()` applied to a rational: truncation toward zero. -/
def pyInt (q : ℚ) : ℤ :=
  if 0 ≤ q then ⌊q⌋ else ⌈q⌉

/-- `Rover.set_fan_speed`: assert `0 <= fan_speed <= 1`, then submit
`SET_FAN_SPEED` with argument `int(fan_speed * 240)`. -/
def set_fan_speed (s : RoverState) (fan_speed : ℚ) :
    RoverState × Except RoverError Unit :=
  if 0 ≤ fan_speed ∧ fan_speed ≤ 1 then
    (send_command s .SET_FAN_SPEED (pyInt (fan_speed * 240)), .ok ())
  else (s, .error .assertionError)

/-- `Rover.flipper_calibrate`: submit the calibration verb with its fixed
sentinel argument. -/
def flipper_calibrate (s : RoverState) : RoverState :=
  send_command s .FLIPPER_CALIBRATE flipperCalibrateCode

/-- `Rover.get_data`: submit `GET_DATA index`, then read one response under
`trio.fail_after(1)`; a decoded key different from `index` raises
`OpenRoverException` (the response stays consumed), a matching key returns the
decoded value. -/
def get_data (s : RoverState) (index : ℕ) :
    RoverState × Except RoverError ℤ :=
  let s1 := send_command s .GET_DATA (index : ℤ)
  match read_one_within 1 s1 with
  | (s2, .error e) => (s2, .error e)
  | (s2, .ok (k, data)) =>
    if k = index then (s2, .ok data)
    else (s2, .error (.unexpectedData index k data))

/-- `sorted(set(indices))`: the distinct indices in ascending order. -/
def sortedDistinct (ixs : List ℕ) : List ℕ :=
  List.insertionSort (· ≤ ·) ixs.dedup

/-- First loop of `Rover.get_data_items`: one `GET_DATA` submission per
index, in list order. -/
def sendGetData (s : RoverState) (ixs : List ℕ) : RoverState :=
  ixs.foldl (fun t i => send_command t .GET_DATA (i : ℤ)) s

/-- Second loop of `Rover.get_data_items`: read one response per requested
index, each under `trio.fail_after(1)`, raising `OpenRoverException` on the
first key that does not match the corresponding index, and otherwise recording
`result[k] = data` in request order. -/
def readMatching (s : RoverState) (ixs : List ℕ) (acc : List (ℕ × ℤ)) :
    RoverState × Except RoverError (List (ℕ × ℤ)) :=
  match ixs with
  | [] => (s, .ok acc)
  | i :: rest =>
    match read_one_within 1 s with
    | (s1, .error e) => (s1, .error e)
    | (s1, .ok (k, data)) =>
      if k = i then readMatching s1 rest (acc ++ [(k, data)])
      else (s1, .error (.unexpectedData i k data))

/-- `Rover.get_data_items`: de-duplicate and sort the indices, submit one
`GET_DATA` per index, then read and match exactly that many responses.  The
returned association list is the `dict` in key-insertion order (which is the
sorted request order). -/
def get_data_items (s : RoverState) (ixs : List ℕ) :
    RoverState × Except RoverError (List (ℕ × ℤ)) :=
  let sd := sortedDistinct ixs
  readMatching (sendGetData s sd) sd []

/-- The version-request frame `write_nowait(0, 0, 0, CommandVerbs.GET_DATA, 40)`. -/
def versionRequestFrame : Frame :=
  ⟨0, 0, 0, .GET_DATA, 40⟩

/-- The loop body of `get_openrover_version`: up to `n` iterations, each
writing the version request and reading one response; all reads share the
single overall `trio.fail_after(1)` budget, so here `Response.delay` is read
as the absolute arrival time measured from the start of the whole call, and a
read succeeds iff that arrival time fits the one shared deadline.  Any
exception (in particular the timeout) is converted to `OpenRoverException` by
the surrounding `try`; falling off the end of the loop returns `None`. -/
def get_openrover_version_loop :
    ℕ → List Response → List Frame → List Frame × Except RoverError (Option ℤ)
  | 0, _, frames => (frames, .ok none)
  | n + 1, incoming, frames =>
    let frames1 := frames ++ [versionRequestFrame]
    match incoming with
    | [] => (frames1, .error .noVersionResponse)
    | resp :: rest =>
      if resp.delay ≤ 1 then
        if resp.key = 40 then (frames1, .ok (some resp.data))
        else get_openrover_version_loop n rest frames1
      else (frames1, .error .noVersionResponse)

/-- `get_openrover_version`: under one overall `trio.fail_after(1)`, up to two
rounds of write-request / read-response; returns the decoded value of the first
response with key 40, `none` if both responses have other keys, and raises
`OpenRoverException` if anything (including the overall timeout) fails.  The
result also carries the list of frames written. -/
def get_openrover_version (incoming : List Response) :
    List Frame × Except RoverError (Option ℤ) :=
  get_openrover_version_loop 2 incoming []

/-- Whether the pending responses can serve the reads for `ixs`: one response
per index, each arriving within its 1-time-unit deadline, each key equal to
the corresponding index, positionally. -/
def canRead : List Response → List ℕ → Bool
  | _, [] => true
  | [], _ :: _ => false
  | r :: rs, i :: is => (decide (r.delay ≤ 1) && (r.key == i)) && canRead rs is

/-- Two rover states hold the same motor triple. -/
def motorsEq (t s : RoverState) : Prop :=
  t.motor_left = s.motor_left ∧ t.motor_right = s.motor_right ∧
    t.motor_flipper = s.motor_flipper

/-! ## CLI (`pitstop.py`) -/

namespace Pitstop

/-- The settings verbs: `SETTINGS_VERBS = list(map(CommandVerbs, [3, 4, 5, 6, 7, 8]))`. -/
def SETTINGS_VERBS : List ℤ := [3, 4, 5, 6, 7, 8]

/-- Decimal-digit string to number: `none` unless the character list is a
nonempty run of ASCII digits. -/
def digitsToNat (cs : List Char) : Option ℕ :=
  if cs = [] then none
  else if cs.all Char.isDigit then
    some (cs.foldl (fun a c => a * 10 + (c.toNat - 48)) 0)
  else none

/-- Python `int(str)` on a character list: an optional sign followed by a
nonempty run of digits (leading/trailing whitespace and underscore separators,
which Python also tolerates, are not modelled). -/
def parseInt (cs : List Char) : Option ℤ :=
  match cs with
  | '-' :: rest => (digitsToNat rest).map (fun n => -(n : ℤ))
  | '+' :: rest => (digitsToNat rest).map (fun n => (n : ℤ))
  | l => (digitsToNat l).map (fun n => (n : ℤ))

/-- Python `str.split(sep)` restricted to the single separator `':'`, with no
maximum number of splits. -/
def splitOnColon : List Char → List (List Char)
  | [] => [[]]
  | c :: rest =>
    match splitOnColon rest with
    | [] => [[]]
    | p :: ps => if c = ':' then [] :: p :: ps else (c :: p) :: ps

/-- `rover_command_arg_pair`: `k, v = arg.split(':', 2)` succeeds exactly when
the argument holds a single colon — with `maxsplit=2`, two or more colons give
three parts and zero colons give one, both a `ValueError` — so it is modelled
by requiring `splitOnColon` to yield exactly two parts.  `CommandVerbs(int(k))`
raises `ValueError` when `int(k)` is not a verb code, and the explicit check
raises `ValueError` when the verb is not in `SETTINGS_VERBS`; since
`SETTINGS_VERBS` codes are all valid verbs, the two checks together accept
exactly the members of `SETTINGS_VERBS` and are modelled as list membership.
Finally `v` must parse as an integer in `0..255`. -/
def rover_command_arg_pair (arg : List Char) : Option (ℤ × ℤ) :=
  match splitOnColon arg with
  | [ks, vs] =>
    match parseInt ks, parseInt vs with
    | some k, some v =>
      if k ∈ SETTINGS_VERBS then
        if 0 ≤ v ∧ v ≤ 255 then some (k, v) else none
      else none
    | _, _ => none
  | _ => none

/-- Parsed command-line arguments of `pitstop.py` after `argparse` succeeded:
an optional explicit port, an optional firmware path to flash, an optional
minimum version and the (possibly empty) list of parsed settings pairs.
Versions are modelled as naturals; `LooseVersion` ordering on the actual
version strings is an order-embedding detail the exit-code logic never
inspects beyond one `<` comparison. -/
structure CliArgs where
  port : Option String
  flash : Option String
  minimumversion : Option ℕ
  updatesettings : List (ℤ × ℤ)
  deriving DecidableEq, Repr

/-- Modelled from the spec: the external collaborators `pitstop.py` talks to
(device discovery, the filesystem, the bootloader subprocess, and the version
telemetry read), as the spec's §6 boundary describes them.  `versionResponse`
is the decoded `(key, value)` pair delivered by the single
`read_one()` under `trio.fail_after(10)`, or `none` when that read times
out. -/
structure CliEnv where
  ftdiPorts : List String
  fileExists : String → Bool
  bootloadOk : Bool
  versionResponse : Option (ℕ × ℕ)

/-- The flash step of `amain`: `none` means continue, `some c` means the
process exits with code `c`.  A missing hex file prints and exits 1; a failing
bootloader subprocess raises `CalledProcessError`, which is uncaught and
terminates the interpreter with exit status 1. -/
def flashStep (flash : Option String) (env : CliEnv) : Option ℕ :=
  match flash with
  | none => none
  | some f =>
    if env.fileExists f then
      if env.bootloadOk then none else some 1
    else some 1

/-- The minimum-version step of `amain`: a timed-out read is an uncaught
`trio.TooSlowError` (interpreter exit status 1); a response with key ≠ 40
leaves `actual_version = None` and exits 1; a version below the minimum prints
`Failed!` and exits 1. -/
def versionStep (minimumversion : Option ℕ) (env : CliEnv) : Option ℕ :=
  match minimumversion with
  | none => none
  | some minv =>
    match env.versionResponse with
    | none => some 1
    | some (k, v) =>
      if k = 40 then
        if v < minv then some 1 else none
      else some 1

/-- `amain` as an exit-code function.  No action requested is `parser.error`
(argparse exit status 2).  With no `--port` and no discovered device, exit 1.
Then the flash, version and settings steps run in order; the settings step
only writes and flushes frames, which cannot fail in this model (the transport
is assumed healthy, per the spec's boundary); finally exit 0. -/
def amain (args : CliArgs) (env : CliEnv) : ℕ :=
  if args.flash.isNone ∧ args.minimumversion.isNone ∧ args.updatesettings = [] then
    2
  else if args.port.isNone ∧ env.ftdiPorts = [] then
    1
  else
    match flashStep args.flash env with
    | some c => c
    | none =>
      match versionStep args.minimumversion env with
      | some c => c
      | none => 0

end Pitstop

/-! ## Helper lemmas -/

/-- One send step of the `get_data_items` request loop. -/
theorem sendGetData_cons (s : RoverState) (i : ℕ) (rest : List ℕ) :
    sendGetData s (i :: rest) = sendGetData (send_command s .GET_DATA (i : ℤ)) rest := rfl

/-- The request loop of `get_data_items` appends one `GET_DATA` frame per index,
in order, each carrying the motor triple stored at submission time. -/
theorem sendGetData_eq (ixs : List ℕ) : ∀ s : RoverState,
    sendGetData s ixs =
      { s with sent := s.sent ++ ixs.map (fun i =>
          ⟨s.motor_left, s.motor_right, s.motor_flipper, .GET_DATA, (i : ℤ)⟩) } := by
  induction ixs with
  | nil => intro s; simp [sendGetData]
  | cons i rest ih =>
    intro s
    rw [sendGetData_cons, ih]
    simp [send_command, write_nowait]

/-- The read loop of `get_data_items` never touches the motor triple or the
outgoing queue, whatever the outcome. -/
theorem readMatching_preserves (ixs : List ℕ) : ∀ (s : RoverState) (acc : List (ℕ × ℤ)),
    motorsEq (readMatching s ixs acc).1 s ∧ (readMatching s ixs acc).1.sent = s.sent := by
  induction ixs with
  | nil => intro s acc; simp [readMatching, motorsEq]
  | cons i rest ih =>
    intro s acc
    rcases hinc : s.incoming with _ | ⟨r, tl⟩
    · simp [readMatching, read_one_within, hinc, motorsEq]
    · by_cases hd : r.delay ≤ 1
      · by_cases hk : r.key = i
        · have := ih { s with incoming := tl } (acc ++ [(r.key, r.data)])
          simpa [readMatching, read_one_within, hinc, hd, hk, motorsEq] using this
        · simp [readMatching, read_one_within, hinc, hd, hk, motorsEq]
      · simp [readMatching, read_one_within, hinc, hd, motorsEq]

/-- When the pending responses can serve all reads, the read loop of
`get_data_items` consumes exactly that many responses and returns their
`(key, value)` pairs appended to the accumulator. -/
theorem readMatching_ok (ixs : List ℕ) : ∀ (s : RoverState) (acc : List (ℕ × ℤ)),
    canRead s.incoming ixs = true →
    readMatching s ixs acc =
      ({ s with incoming := s.incoming.drop ixs.length },
       .ok (acc ++ (s.incoming.take ixs.length).map (fun r => (r.key, r.data)))) := by
  induction ixs with
  | nil => intro s acc _; simp [readMatching]
  | cons i rest ih =>
    intro s acc h
    rcases hinc : s.incoming with _ | ⟨r, tl⟩
    · rw [hinc] at h; simp [canRead] at h
    · rw [hinc] at h
      simp only [canRead, Bool.and_eq_true, decide_eq_true_eq, beq_iff_eq] at h
      obtain ⟨⟨hd, hk⟩, hrest⟩ := h
      have := ih { s with incoming := tl } (acc ++ [(r.key, r.data)]) (by simpa using hrest)
      simp only [readMatching, read_one_within, hinc, if_pos hd]
      rw [if_pos hk, this]
      simp [hk]

/-- When the pending responses cannot serve all reads, the read loop of
`get_data_items` fails with some exception. -/
theorem readMatching_error (ixs : List ℕ) : ∀ (s : RoverState) (acc : List (ℕ × ℤ)),
    canRead s.incoming ixs = false →
    ∃ s1 e, readMatching s ixs acc = (s1, .error e) := by
  induction ixs with
  | nil => intro s acc h; simp [canRead] at h
  | cons i rest ih =>
    intro s acc h
    rcases hinc : s.incoming with _ | ⟨r, tl⟩
    · exact ⟨s, .tooSlow, by simp [readMatching, read_one_within, hinc]⟩
    · rw [hinc] at h
      simp only [canRead, Bool.and_eq_false_iff] at h
      by_cases hd : r.delay ≤ 1
      · by_cases hk : r.key = i
        · have hrest : canRead tl rest = false := by
            rcases h with h | h
            · rcases h with h | h
              · simp [hd] at h
              · simp [hk] at h
            · exact h
          obtain ⟨s1, e, he⟩ := ih { s with incoming := tl } (acc ++ [(r.key, r.data)]) (by simpa using hrest)
          rw [hk] at he
          exact ⟨s1, e, by simp [readMatching, read_one_within, hinc, hd, hk, he]⟩
        · exact ⟨{ s with incoming := tl }, .unexpectedData i r.key r.data,
            by simp [readMatching, read_one_within, hinc, hd, hk]⟩
      · exact ⟨s, .tooSlow, by simp [readMatching, read_one_within, hinc, hd]⟩

/-- If every needed response is present and timely but some decoded key
differs from the corresponding requested index, the read loop fails with the
`OpenRoverException` carrying the first offending pair. -/
theorem readMatching_mismatch (ixs : List ℕ) : ∀ (s : RoverState) (acc : List (ℕ × ℤ)),
    ixs.length ≤ s.incoming.length →
    (∀ r ∈ s.incoming.take ixs.length, r.delay ≤ 1) →
    (s.incoming.take ixs.length).map Response.key ≠ ixs →
    ∃ s1 exp rec d, readMatching s ixs acc = (s1, .error (.unexpectedData exp rec d)) := by
  induction ixs with
  | nil => intro s acc _ _ hne; simp at hne
  | cons i rest ih =>
    intro s acc hlen hdel hne
    rcases hinc : s.incoming with _ | ⟨r, tl⟩
    · rw [hinc] at hlen; simp at hlen
    · rw [hinc] at hlen hdel hne
      simp only [List.length_cons, List.take_succ_cons, List.map_cons] at hlen hdel hne
      have hd : r.delay ≤ 1 := hdel r (by simp)
      by_cases hk : r.key = i
      · have hne' : (tl.take rest.length).map Response.key ≠ rest := by
          intro hcontra; exact hne (by rw [hk, hcontra])
        obtain ⟨s1, exp, rec, d, he⟩ := ih { s with incoming := tl } (acc ++ [(r.key, r.data)])
          (by simpa using Nat.le_of_succ_le_succ hlen)
          (by intro x hx; exact hdel x (by simp [hx]))
          (by simpa using hne')
        rw [hk] at he
        exact ⟨s1, exp, rec, d, by simp [readMatching, read_one_within, hinc, hd, hk, he]⟩
      · exact ⟨{ s with incoming := tl }, i, r.key, r.data,
          by simp [readMatching, read_one_within, hinc, hd, hk]⟩

/-- When all reads can be served, the decoded keys are exactly the requested
indices, in order. -/
theorem canRead_keys (ixs : List ℕ) : ∀ inc : List Response,
    canRead inc ixs = true →
    (inc.take ixs.length).map Response.key = ixs := by
  induction ixs with
  | nil => intro inc _; simp
  | cons i rest ih =>
    intro inc h
    rcases inc with _ | ⟨r, tl⟩
    · simp [canRead] at h
    · simp only [canRead, Bool.and_eq_true, decide_eq_true_eq, beq_iff_eq] at h
      obtain ⟨⟨_, hk⟩, hrest⟩ := h
      simp [hk, ih tl hrest]

/-- `get_data` always queues exactly the one `GET_DATA` frame, carrying the
current motor triple, whatever the read outcome. -/
theorem get_data_sent (s : RoverState) (index : ℕ) :
    ((get_data s index).1).sent =
      s.sent ++ [⟨s.motor_left, s.motor_right, s.motor_flipper, .GET_DATA, (index : ℤ)⟩] := by
  rcases hinc : s.incoming with _ | ⟨r, tl⟩
  · simp [get_data, read_one_within, send_command, write_nowait, hinc]
  · by_cases hd : r.delay ≤ 1
    · by_cases hk : r.key = index
      · simp [get_data, read_one_within, send_command, write_nowait, hinc, hd, hk]
      · simp [get_data, read_one_within, send_command, write_nowait, hinc, hd, hk]
    · simp [get_data, read_one_within, send_command, write_nowait, hinc, hd]

/-- `get_data` never touches the stored motor triple. -/
theorem get_data_motors (s : RoverState) (index : ℕ) :
    motorsEq ((get_data s index).1) s := by
  rcases hinc : s.incoming with _ | ⟨r, tl⟩
  · simp [get_data, read_one_within, send_command, write_nowait, hinc, motorsEq]
  · by_cases hd : r.delay ≤ 1
    · by_cases hk : r.key = index
      · simp [get_data, read_one_within, send_command, write_nowait, hinc, hd, hk, motorsEq]
      · simp [get_data, read_one_within, send_command, write_nowait, hinc, hd, hk, motorsEq]
    · simp [get_data, read_one_within, send_command, write_nowait, hinc, hd, motorsEq]

/-- `sorted(set(·))` yields an ascending list. -/
theorem sortedDistinct_sorted (ixs : List ℕ) :
    List.Sorted (· ≤ ·) (sortedDistinct ixs) :=
  List.sorted_insertionSort _ _

/-- `sorted(set(·))` yields a duplicate-free list. -/
theorem sortedDistinct_nodup (ixs : List ℕ) : (sortedDistinct ixs).Nodup :=
  (List.perm_insertionSort _ _).nodup_iff.2 (List.nodup_dedup ixs)

/-- `sorted(set(·))` preserves membership. -/
theorem sortedDistinct_mem (ixs : List ℕ) (x : ℕ) :
    x ∈ sortedDistinct ixs ↔ x ∈ ixs := by
  rw [sortedDistinct, (List.perm_insertionSort _ _).mem_iff, List.mem_dedup]

/-- One retry step of the version-probe loop: a timely response with the
wrong key sends the request again. -/
theorem get_openrover_version_loop_step (n : ℕ) (r : Response) (rest : List Response)
    (frames : List Frame) (hd : r.delay ≤ 1) (hk : r.key ≠ 40) :
    get_openrover_version_loop (n + 1) (r :: rest) frames =
      get_openrover_version_loop n rest (frames ++ [versionRequestFrame]) := by
  conv_lhs => rw [get_openrover_version_loop]
  simp [hd, hk]

/-- A round of the version-probe loop whose read times out raises. -/
theorem get_openrover_version_loop_late (n : ℕ) (r : Response) (rest : List Response)
    (frames : List Frame) (hd : ¬r.delay ≤ 1) :
    get_openrover_version_loop (n + 1) (r :: rest) frames =
      (frames ++ [versionRequestFrame], .error .noVersionResponse) := by
  conv_lhs => rw [get_openrover_version_loop]
  simp [hd]

/-- A round of the version-probe loop that reads a timely key-40 response
returns its decoded value. -/
theorem get_openrover_version_loop_hit (n : ℕ) (r : Response) (rest : List Response)
    (frames : List Frame) (hd : r.delay ≤ 1) (hk : r.key = 40) :
    get_openrover_version_loop (n + 1) (r :: rest) frames =
      (frames ++ [versionRequestFrame], .ok (some r.data)) := by
  conv_lhs => rw [get_openrover_version_loop]
  simp [hd, hk]

/-- A round of the version-probe loop with no pending response raises. -/
theorem get_openrover_version_loop_empty (n : ℕ) (frames : List Frame) :
    get_openrover_version_loop (n + 1) [] frames =
      (frames ++ [versionRequestFrame], .error .noVersionResponse) := rfl

/-- The version-probe loop only ever raises the wrapped `OpenRoverException`. -/
theorem get_openrover_version_loop_error (n : ℕ) : ∀ (inc : List Response)
    (frames frames1 : List Frame) (e : RoverError),
    get_openrover_version_loop n inc frames = (frames1, .error e) →
    e = .noVersionResponse := by
  induction n with
  | zero => intro inc frames frames1 e h; cases h
  | succ n ih =>
    intro inc frames frames1 e h
    rcases inc with _ | ⟨r, rest⟩
    · simp only [get_openrover_version_loop] at h
      injection h with h1 h2
      injection h2 with h3
      exact h3.symm
    · by_cases hd : r.delay ≤ 1
      · by_cases hk : r.key = 40
        · simp [get_openrover_version_loop, hd, hk] at h
        · simp only [get_openrover_version_loop, if_pos hd, if_neg hk] at h
          exact ih rest (frames ++ [versionRequestFrame]) frames1 e h
      · simp only [get_openrover_version_loop, if_neg hd] at h
        injection h with h1 h2
        injection h2 with h3
        exact h3.symm

/-- The version-probe loop with `n + 1` rounds allowed writes the request
between 1 and `n + 1` times. -/
theorem get_openrover_version_loop_frames (n : ℕ) : ∀ (inc : List Response)
    (frames : List Frame),
    ∃ k, 1 ≤ k ∧ k ≤ n + 1 ∧
      (get_openrover_version_loop (n + 1) inc frames).1 =
        frames ++ List.replicate k versionRequestFrame := by
  induction n with
  | zero =>
    intro inc frames
    refine ⟨1, le_refl 1, le_refl 1, ?_⟩
    rcases inc with _ | ⟨r, rest⟩
    · simp [get_openrover_version_loop]
    · by_cases hd : r.delay ≤ 1
      · by_cases hk : r.key = 40
        · simp [get_openrover_version_loop, hd, hk]
        · simp [get_openrover_version_loop, hd, hk]
      · simp [get_openrover_version_loop, hd]
  | succ n ih =>
    intro inc frames
    rcases inc with _ | ⟨r, rest⟩
    · exact ⟨1, le_refl 1, by omega, by simp [get_openrover_version_loop]⟩
    · by_cases hd : r.delay ≤ 1
      · by_cases hk : r.key = 40
        · exact ⟨1, le_refl 1, by omega, by simp [get_openrover_version_loop, hd, hk]⟩
        · obtain ⟨k, hk1, hk2, hframes⟩ := ih rest (frames ++ [versionRequestFrame])
          refine ⟨k + 1, by omega, by omega, ?_⟩
          rw [get_openrover_version_loop_step (n + 1) r rest frames hd hk, hframes,
            List.replicate_succ]
          simp
      · exact ⟨1, le_refl 1, by omega, by simp [get_openrover_version_loop, hd]⟩

/-- The flash step either continues or exits with status 1. -/
theorem flashStep_cases (flash : Option String) (env : Pitstop.CliEnv) :
    Pitstop.flashStep flash env = none ∨ Pitstop.flashStep flash env = some 1 := by
  rcases flash with _ | f
  · left; rfl
  · simp only [Pitstop.flashStep]
    split_ifs <;> simp

/-- The minimum-version step either continues or exits with status 1. -/
theorem versionStep_cases (minv : Option ℕ) (env : Pitstop.CliEnv) :
    Pitstop.versionStep minv env = none ∨ Pitstop.versionStep minv env = some 1 := by
  rcases minv with _ | m
  · left; rfl
  · rcases hv : env.versionResponse with _ | ⟨k, v⟩
    · right; simp [Pitstop.versionStep, hv]
    · simp only [Pitstop.versionStep, hv]
      split_ifs <;> simp

/-! ## Claim theorems -/

/-- C4: `set_motor_speeds` keeps each component of the motor triple within
[-1, 1]: a call with any component outside [-1, 1] raises `AssertionError`
immediately, leaving the state — in particular the outgoing frame queue —
exactly as it was, and after every successful call each stored motor component
lies in [-1, 1]. -/
theorem set_motor_speeds_range (s : RoverState) (l r f : ℚ) :
    (¬((-1 ≤ l ∧ l ≤ 1) ∧ (-1 ≤ r ∧ r ≤ 1) ∧ (-1 ≤ f ∧ f ≤ 1)) →
      set_motor_speeds s l r f = (s, .error .assertionError)) ∧
    ((-1 ≤ l ∧ l ≤ 1) → (-1 ≤ r ∧ r ≤ 1) → (-1 ≤ f ∧ f ≤ 1) →
      set_motor_speeds s l r f =
        ({ s with motor_left := l, motor_right := r, motor_flipper := f }, .ok ()) ∧
      (-1 ≤ (set_motor_speeds s l r f).1.motor_left ∧
        (set_motor_speeds s l r f).1.motor_left ≤ 1) ∧
      (-1 ≤ (set_motor_speeds s l r f).1.motor_right ∧
        (set_motor_speeds s l r f).1.motor_right ≤ 1) ∧
      (-1 ≤ (set_motor_speeds s l r f).1.motor_flipper ∧
        (set_motor_speeds s l r f).1.motor_flipper ≤ 1)) := by
  constructor
  · intro h
    simp only [set_motor_speeds]
    split_ifs with h1 h2 h3
    · exact absurd ⟨h1, h2, h3⟩ h
    · rfl
    · rfl
    · rfl
  · intro h1 h2 h3
    have he : set_motor_speeds s l r f =
        ({ s with motor_left := l, motor_right := r, motor_flipper := f }, .ok ()) := by
      simp [set_motor_speeds, h1, h2, h3]
    refine ⟨he, ?_, ?_, ?_⟩ <;> rw [he]
    exacts [h1, h2, h3]

/-- Witness for C4: a successful call at the bounds and a rejected call at 2,
applied to the initial state. -/
theorem set_motor_speeds_range_witness :
    set_motor_speeds {} 1 0 (-1) =
      ({ motor_left := 1, motor_right := 0, motor_flipper := -1 }, .ok ()) ∧
    set_motor_speeds {} 2 0 0 = ({}, .error .assertionError) :=
  ⟨((set_motor_speeds_range {} 1 0 (-1)).2 (by decide) (by decide) (by decide)).1,
   (set_motor_speeds_range {} 2 0 0).1 (by decide)⟩

/-- C9: a rejected `set_motor_speeds` call leaves the state — in particular
all three stored motor components — exactly as it was: the three range checks
all run before any of the three fields is assigned, so a rejected call never
partially updates the motor state. -/
theorem set_motor_speeds_no_partial_update (s : RoverState) (l r f : ℚ)
    (h : ¬((-1 ≤ l ∧ l ≤ 1) ∧ (-1 ≤ r ∧ r ≤ 1) ∧ (-1 ≤ f ∧ f ≤ 1))) :
    (set_motor_speeds s l r f).1 = s := by
  simp only [set_motor_speeds]
  split_ifs with h1 h2 h3
  · exact absurd ⟨h1, h2, h3⟩ h
  all_goals rfl

/-- Witness for C9: a call whose left speed is valid but whose right speed is
out of range leaves the previously stored motor state untouched. -/
theorem set_motor_speeds_no_partial_update_witness :
    (set_motor_speeds { motor_left := 1 } 0 5 0).1 = { motor_left := 1 } :=
  set_motor_speeds_no_partial_update { motor_left := 1 } 0 5 0 (by decide)

/-- C10: no session-layer operation other than `set_motor_speeds` modifies the
stored motor triple: `send_speed`, `set_fan_speed`, `flipper_calibrate`,
`get_data` and `get_data_items` leave `motor_left`, `motor_right` and
`motor_flipper` unchanged, whether they succeed or fail. -/
theorem session_ops_preserve_motors (s : RoverState) :
    motorsEq (send_speed s) s ∧
    (∀ q : ℚ, motorsEq (set_fan_speed s q).1 s) ∧
    motorsEq (flipper_calibrate s) s ∧
    (∀ i : ℕ, motorsEq (get_data s i).1 s) ∧
    (∀ ixs : List ℕ, motorsEq (get_data_items s ixs).1 s) := by
  refine ⟨?_, ?_, ?_, ?_, ?_⟩
  · simp [send_speed, send_command, write_nowait, motorsEq]
  · intro q
    by_cases hq : 0 ≤ q ∧ q ≤ 1
    · simp [set_fan_speed, hq, send_command, write_nowait, motorsEq]
    · simp [set_fan_speed, hq, motorsEq]
  · simp [flipper_calibrate, send_command, write_nowait, motorsEq]
  · intro i
    exact get_data_motors s i
  · intro ixs
    have h1 := readMatching_preserves (sortedDistinct ixs) (sendGetData s (sortedDistinct ixs)) []
    have h2 := sendGetData_eq (sortedDistinct ixs) s
    obtain ⟨⟨ha, hb, hc⟩, _⟩ := h1
    refine ⟨?_, ?_, ?_⟩
    · simp only [get_data_items]; rw [ha, h2]
    · simp only [get_data_items]; rw [hb, h2]
    · simp only [get_data_items]; rw [hc, h2]

/-- C2: every frame submitted through the session layer, whatever its verb and
argument, carries the motor triple stored at submission time: `_send_command`
— the only path from the session layer to `write_nowait` — attaches the
current motor state, and each session operation (NOP heartbeat, fan speed,
flipper calibration, single and batch telemetry requests) extends the
outgoing queue only with frames carrying that triple. -/
theorem every_frame_carries_motor_state (s : RoverState) :
    (∀ (cmd : CommandVerb) (arg : ℤ),
      (send_command s cmd arg).sent =
        s.sent ++ [⟨s.motor_left, s.motor_right, s.motor_flipper, cmd, arg⟩]) ∧
    (send_speed s).sent =
      s.sent ++ [⟨s.motor_left, s.motor_right, s.motor_flipper, .NOP, 0⟩] ∧
    (∀ q : ℚ, 0 ≤ q → q ≤ 1 →
      ((set_fan_speed s q).1).sent =
        s.sent ++ [⟨s.motor_left, s.motor_right, s.motor_flipper, .SET_FAN_SPEED,
          pyInt (q * 240)⟩]) ∧
    (flipper_calibrate s).sent =
      s.sent ++ [⟨s.motor_left, s.motor_right, s.motor_flipper, .FLIPPER_CALIBRATE,
        flipperCalibrateCode⟩] ∧
    (∀ i : ℕ, ((get_data s i).1).sent =
      s.sent ++ [⟨s.motor_left, s.motor_right, s.motor_flipper, .GET_DATA, (i : ℤ)⟩]) ∧
    (∀ ixs : List ℕ, ((get_data_items s ixs).1).sent =
      s.sent ++ (sortedDistinct ixs).map (fun i =>
        ⟨s.motor_left, s.motor_right, s.motor_flipper, .GET_DATA, (i : ℤ)⟩)) := by
  refine ⟨?_, ?_, ?_, ?_, ?_, ?_⟩
  · intro cmd arg; simp [send_command, write_nowait]
  · simp [send_speed, send_command, write_nowait]
  · intro q h0 h1
    simp [set_fan_speed, h0, h1, send_command, write_nowait]
  · simp [flipper_calibrate, send_command, write_nowait]
  · intro i; exact get_data_sent s i
  · intro ixs
    obtain ⟨_, hsent⟩ :=
      readMatching_preserves (sortedDistinct ixs) (sendGetData s (sortedDistinct ixs)) []
    simp only [get_data_items]
    rw [hsent, sendGetData_eq]

/-- Witness for C2: with motors at (1, -1, 0), a fan-speed command at fraction
1 queues exactly one frame carrying that motor triple. -/
theorem every_frame_carries_motor_state_witness :
    ((set_fan_speed { motor_left := 1, motor_right := -1 } 1).1).sent =
      [⟨1, -1, 0, .SET_FAN_SPEED, pyInt (1 * 240)⟩] :=
  (every_frame_carries_motor_state
      { motor_left := 1, motor_right := -1 }).2.2.1 1 (by decide) (by decide)

/-- C3: `get_data index` submits one `GET_DATA` frame for `index` and then
waits on `read_one` under the 1-time-unit deadline: no pending response, or a
response arriving past the deadline, raises the timeout; a timely response
whose decoded key differs from `index` raises the unexpected-data
`OpenRoverException` with the response consumed (neither returned, silently
dropped, nor re-queued); a timely response with the matching key returns its
decoded value. -/
theorem get_data_spec (s : RoverState) (index : ℕ) :
    ((get_data s index).1).sent =
      s.sent ++ [⟨s.motor_left, s.motor_right, s.motor_flipper, .GET_DATA, (index : ℤ)⟩] ∧
    (s.incoming = [] → (get_data s index).2 = .error .tooSlow) ∧
    (∀ r tl, s.incoming = r :: tl → ¬(r.delay ≤ 1) →
      (get_data s index).2 = .error .tooSlow ∧
      ((get_data s index).1).incoming = r :: tl) ∧
    (∀ r tl, s.incoming = r :: tl → r.delay ≤ 1 → r.key ≠ index →
      (get_data s index).2 = .error (.unexpectedData index r.key r.data) ∧
      ((get_data s index).1).incoming = tl) ∧
    (∀ r tl, s.incoming = r :: tl → r.delay ≤ 1 → r.key = index →
      (get_data s index).2 = .ok r.data ∧ ((get_data s index).1).incoming = tl) := by
  refine ⟨get_data_sent s index, ?_, ?_, ?_, ?_⟩
  · intro hinc
    simp [get_data, read_one_within, send_command, write_nowait, hinc]
  · intro r tl hinc hd
    constructor <;> simp [get_data, read_one_within, send_command, write_nowait, hinc, hd]
  · intro r tl hinc hd hk
    constructor <;> simp [get_data, read_one_within, send_command, write_nowait, hinc, hd, hk]
  · intro r tl hinc hd hk
    constructor <;> simp [get_data, read_one_within, send_command, write_nowait, hinc, hd, hk]

/-- Witness for C3: a timely response with key 7 to a request for index 5
fails the call with the unexpected-data exception, consuming the response. -/
theorem get_data_spec_witness :
    (get_data { incoming := [⟨0, 7, 3⟩] } 5).2 = .error (.unexpectedData 5 7 3) ∧
    ((get_data { incoming := [⟨0, 7, 3⟩] } 5).1).incoming = [] :=
  (get_data_spec { incoming := [⟨0, 7, 3⟩] } 5).2.2.2.1 ⟨0, 7, 3⟩ []
    rfl (by decide) (by decide)

/-- C7: for a fraction in [0, 1], `set_fan_speed` submits exactly one frame
with verb `SET_FAN_SPEED` and integer argument `int(fraction * 240)` — a
scaling that is monotone in the fraction, maps 0 to 0 and 1 to the maximum
duty value 240, and never leaves [0, 240] — while a fraction outside [0, 1]
raises `AssertionError` and submits nothing. -/
theorem set_fan_speed_spec (s : RoverState) (q : ℚ) :
    (0 ≤ q → q ≤ 1 →
      set_fan_speed s q =
        ({ s with sent := s.sent ++ [⟨s.motor_left, s.motor_right, s.motor_flipper,
            .SET_FAN_SPEED, pyInt (q * 240)⟩] }, .ok ()) ∧
      0 ≤ pyInt (q * 240) ∧ pyInt (q * 240) ≤ 240) ∧
    (∀ q' : ℚ, 0 ≤ q → q ≤ q' → pyInt (q * 240) ≤ pyInt (q' * 240)) ∧
    pyInt ((0 : ℚ) * 240) = 0 ∧
    pyInt ((1 : ℚ) * 240) = 240 ∧
    (¬(0 ≤ q ∧ q ≤ 1) → set_fan_speed s q = (s, .error .assertionError)) := by
  have h240 : ⌊(240 : ℚ)⌋ = 240 := by
    rw [show (240 : ℚ) = ((240 : ℤ) : ℚ) by norm_num, Int.floor_intCast]
  refine ⟨?_, ?_, ?_, ?_, ?_⟩
  · intro h0 h1
    have hq0 : 0 ≤ q * 240 := mul_nonneg h0 (by norm_num)
    have hq1 : q * 240 ≤ 240 := by nlinarith
    refine ⟨?_, ?_, ?_⟩
    · simp [set_fan_speed, h0, h1, send_command, write_nowait]
    · simp only [pyInt, if_pos hq0]
      exact Int.floor_nonneg.2 hq0
    · simp only [pyInt, if_pos hq0]
      calc ⌊q * 240⌋ ≤ ⌊(240 : ℚ)⌋ := Int.floor_le_floor hq1
        _ = 240 := h240
  · intro q' h0 hle
    have hq0 : 0 ≤ q * 240 := mul_nonneg h0 (by norm_num)
    have hq0' : 0 ≤ q' * 240 := mul_nonneg (h0.trans hle) (by norm_num)
    simp only [pyInt, if_pos hq0, if_pos hq0']
    exact Int.floor_le_floor (by nlinarith)
  · norm_num [pyInt]
  · rw [one_mul, pyInt, if_pos (by norm_num : (0:ℚ) ≤ 240), h240]
  · intro h
    simp [set_fan_speed, h]

/-- Witness for C7: at fraction 1 the call queues the single maximal-duty
frame ack'd by `.ok`, and at fraction 2 it is rejected with the state
untouched. -/
theorem set_fan_speed_spec_witness :
    set_fan_speed {} 1 =
      ({ sent := [⟨0, 0, 0, .SET_FAN_SPEED, pyInt (1 * 240)⟩] }, .ok ()) ∧
    pyInt ((1 : ℚ) * 240) = 240 ∧
    set_fan_speed {} 2 = ({}, .error .assertionError) :=
  ⟨((set_fan_speed_spec {} 1).1 (by decide) (by decide)).1,
   (set_fan_speed_spec {} 1).2.2.2.1,
   (set_fan_speed_spec {} 2).2.2.2.2 (by decide)⟩

/-- C1: `get_data_items` de-duplicates and sorts the indices, submits exactly
one `GET_DATA` frame per distinct index in ascending order, then reads exactly
that many responses in the same order; on success it returns the mapping (in
key-insertion order) whose key list is exactly the sorted distinct requested
indices — so its key set is exactly the set of requested indices — each
mapped to its decoded value; if any decoded key differs from the
corresponding requested index the whole batch fails with the unexpected-data
exception.  Concretely, `get_data_items {40, 14, 14, 28}` issues exactly 3
requests and returns exactly the keys 14, 28, 40. -/
theorem get_data_items_spec (s : RoverState) (ixs : List ℕ) :
    List.Sorted (· ≤ ·) (sortedDistinct ixs) ∧
    (sortedDistinct ixs).Nodup ∧
    (∀ x, x ∈ sortedDistinct ixs ↔ x ∈ ixs) ∧
    ((get_data_items s ixs).1).sent =
      s.sent ++ (sortedDistinct ixs).map (fun i =>
        ⟨s.motor_left, s.motor_right, s.motor_flipper, .GET_DATA, (i : ℤ)⟩) ∧
    (∀ m, (get_data_items s ixs).2 = .ok m →
      m = (s.incoming.take (sortedDistinct ixs).length).map (fun r => (r.key, r.data)) ∧
      m.map Prod.fst = sortedDistinct ixs ∧
      (∀ x, x ∈ m.map Prod.fst ↔ x ∈ ixs) ∧
      ((get_data_items s ixs).1).incoming =
        s.incoming.drop (sortedDistinct ixs).length) ∧
    ((sortedDistinct ixs).length ≤ s.incoming.length →
      (∀ r ∈ s.incoming.take (sortedDistinct ixs).length, r.delay ≤ 1) →
      (s.incoming.take (sortedDistinct ixs).length).map Response.key ≠ sortedDistinct ixs →
      ∃ s1 exp rec d, get_data_items s ixs = (s1, .error (.unexpectedData exp rec d))) ∧
    get_data_items { incoming := [⟨0, 14, 5⟩, ⟨0, 28, 6⟩, ⟨0, 40, 7⟩] } [40, 14, 14, 28] =
      ({ incoming := [],
         sent := [⟨0, 0, 0, .GET_DATA, 14⟩, ⟨0, 0, 0, .GET_DATA, 28⟩,
                  ⟨0, 0, 0, .GET_DATA, 40⟩] },
       .ok [(14, 5), (28, 6), (40, 7)]) := by
  have hin : (sendGetData s (sortedDistinct ixs)).incoming = s.incoming := by
    rw [sendGetData_eq]
  refine ⟨sortedDistinct_sorted ixs, sortedDistinct_nodup ixs, sortedDistinct_mem ixs, ?_, ?_, ?_, ?_⟩
  · obtain ⟨_, hsent⟩ :=
      readMatching_preserves (sortedDistinct ixs) (sendGetData s (sortedDistinct ixs)) []
    simp only [get_data_items]
    rw [hsent, sendGetData_eq]
  · intro m hm
    simp only [get_data_items] at hm
    cases hcr : canRead (sendGetData s (sortedDistinct ixs)).incoming (sortedDistinct ixs) with
    | false =>
      obtain ⟨s1, e, he⟩ :=
        readMatching_error (sortedDistinct ixs) (sendGetData s (sortedDistinct ixs)) [] hcr
      rw [he] at hm
      cases hm
    | true =>
      have hrun := readMatching_ok (sortedDistinct ixs) (sendGetData s (sortedDistinct ixs)) [] hcr
      rw [hin] at hrun
      rw [hrun] at hm
      simp only [List.nil_append] at hm
      obtain rfl : (s.incoming.take (sortedDistinct ixs).length).map (fun r => (r.key, r.data)) = m :=
        by exact Except.ok.inj hm
      rw [hin] at hcr
      have hkeys : (s.incoming.take (sortedDistinct ixs).length).map Response.key =
          sortedDistinct ixs := canRead_keys (sortedDistinct ixs) s.incoming hcr
      have hfst : ((s.incoming.take (sortedDistinct ixs).length).map
          (fun r => (r.key, r.data))).map Prod.fst = sortedDistinct ixs := by
        rw [List.map_map]; exact hkeys
      refine ⟨rfl, hfst, ?_, ?_⟩
      · intro x; rw [hfst]; exact sortedDistinct_mem ixs x
      · simp only [get_data_items]
        rw [hrun]
  · intro hlen hdel hne
    obtain ⟨s1, exp, rec, d, he⟩ :=
      readMatching_mismatch (sortedDistinct ixs) (sendGetData s (sortedDistinct ixs)) []
        (by rw [hin]; exact hlen) (by rw [hin]; exact hdel) (by rw [hin]; exact hne)
    exact ⟨s1, exp, rec, d, by simp only [get_data_items]; exact he⟩
  · decide

/-- Witness for C1: a single timely response whose key 99 differs from the one
requested index 14 makes the whole batch fail with the unexpected-data
exception. -/
theorem get_data_items_spec_witness :
    ∃ s1 exp rec d,
      get_data_items { incoming := [⟨0, 99, 1⟩] } [14] =
        (s1, .error (.unexpectedData exp rec d)) :=
  (get_data_items_spec { incoming := [⟨0, 99, 1⟩] } [14]).2.2.2.2.2.1
    (by decide) (by decide) (by decide)

/-- Counterexample to C5 as stated: both reads return timely responses whose
key is 14 ≠ 40, so no valid version response ever arrives, yet
`get_openrover_version` reports no `OpenRoverException`: it returns
successfully, with no version value. -/
theorem get_openrover_version_counterexample :
    (get_openrover_version [⟨0, 14, 0⟩, ⟨0, 14, 0⟩]).2 = .ok none ∧
    (get_openrover_version [⟨0, 14, 0⟩, ⟨0, 14, 0⟩]).2 ≠ .error .noVersionResponse := by
  constructor
  · decide
  · decide

/-- C5 (amended): `get_openrover_version` writes the version request
`(0, 0, 0, GET_DATA, 40)` once or twice — retrying once after a timely
response with a key other than 40 — under one shared overall timeout; every
error it raises is the wrapping `OpenRoverException`, and it does raise
whenever a read finds no response or only a response past the shared
deadline; the first timely response with key 40 — whether it answers the
first read or the retry after a timely wrong-key response — has its decoded
value returned, with no version-threshold comparison; but when both reads
return timely responses with keys other than 40, it returns no value
(`None`) without raising. -/
theorem get_openrover_version_spec (incoming : List Response) :
    ((get_openrover_version incoming).1 = [versionRequestFrame] ∨
      (get_openrover_version incoming).1 = [versionRequestFrame, versionRequestFrame]) ∧
    (incoming = [] → (get_openrover_version incoming).2 = .error .noVersionResponse) ∧
    (∀ e, (get_openrover_version incoming).2 = .error e → e = .noVersionResponse) ∧
    (∀ r tl, incoming = r :: tl → r.delay ≤ 1 → r.key = 40 →
      (get_openrover_version incoming).2 = .ok (some r.data)) ∧
    (∀ r r' tl, incoming = r :: r' :: tl → r.delay ≤ 1 → r.key ≠ 40 →
      r'.delay ≤ 1 → r'.key = 40 →
      (get_openrover_version incoming).2 = .ok (some r'.data)) ∧
    (∀ r tl, incoming = r :: tl → ¬r.delay ≤ 1 →
      (get_openrover_version incoming).2 = .error .noVersionResponse) ∧
    (∀ r r' tl, incoming = r :: r' :: tl → r.delay ≤ 1 → r.key ≠ 40 →
      r'.delay ≤ 1 → r'.key ≠ 40 →
      (get_openrover_version incoming).2 = .ok none) ∧
    (∀ r r' tl, incoming = r :: r' :: tl → r.delay ≤ 1 → r.key ≠ 40 →
      ¬r'.delay ≤ 1 →
      (get_openrover_version incoming).2 = .error .noVersionResponse) ∧
    (∀ r, incoming = [r] → r.delay ≤ 1 → r.key ≠ 40 →
      (get_openrover_version incoming).2 = .error .noVersionResponse) := by
  refine ⟨?_, ?_, ?_, ?_, ?_, ?_, ?_, ?_, ?_⟩
  · obtain ⟨k, h1, h2, hf⟩ := get_openrover_version_loop_frames 1 incoming []
    have hf' : (get_openrover_version incoming).1 = List.replicate k versionRequestFrame := by
      rw [get_openrover_version]
      exact hf.trans (List.nil_append _)
    interval_cases k
    · left; rw [hf']; rfl
    · right; rw [hf']; rfl
  · intro h; subst h; decide
  · intro e h
    rw [get_openrover_version] at h
    exact get_openrover_version_loop_error 2 incoming [] _ e (by rw [← h])
  · intro r tl hinc hd hk
    subst hinc
    have hs : get_openrover_version_loop 2 (r :: tl) [] =
        ([versionRequestFrame], .ok (some r.data)) :=
      get_openrover_version_loop_hit 1 r tl [] hd hk
    rw [get_openrover_version, hs]
  · intro r r' tl hinc hd hk hd' hk'
    subst hinc
    have e1 : get_openrover_version_loop 2 (r :: r' :: tl) [] =
        get_openrover_version_loop 1 (r' :: tl) [versionRequestFrame] :=
      get_openrover_version_loop_step 1 r (r' :: tl) [] hd hk
    have e2 : get_openrover_version_loop 1 (r' :: tl) [versionRequestFrame] =
        ([versionRequestFrame, versionRequestFrame], .ok (some r'.data)) :=
      get_openrover_version_loop_hit 0 r' tl [versionRequestFrame] hd' hk'
    rw [get_openrover_version, e1, e2]
  · intro r tl hinc hd
    subst hinc
    have hs : get_openrover_version_loop 2 (r :: tl) [] =
        ([versionRequestFrame], .error .noVersionResponse) :=
      get_openrover_version_loop_late 1 r tl [] hd
    rw [get_openrover_version, hs]
  · intro r r' tl hinc hd hk hd' hk'
    subst hinc
    have e1 : get_openrover_version_loop 2 (r :: r' :: tl) [] =
        get_openrover_version_loop 1 (r' :: tl) [versionRequestFrame] :=
      get_openrover_version_loop_step 1 r (r' :: tl) [] hd hk
    have e2 : get_openrover_version_loop 1 (r' :: tl) [versionRequestFrame] =
        get_openrover_version_loop 0 tl [versionRequestFrame, versionRequestFrame] :=
      get_openrover_version_loop_step 0 r' tl [versionRequestFrame] hd' hk'
    rw [get_openrover_version, e1, e2]
    rfl
  · intro r r' tl hinc hd hk hd'
    subst hinc
    have e1 : get_openrover_version_loop 2 (r :: r' :: tl) [] =
        get_openrover_version_loop 1 (r' :: tl) [versionRequestFrame] :=
      get_openrover_version_loop_step 1 r (r' :: tl) [] hd hk
    have e2 : get_openrover_version_loop 1 (r' :: tl) [versionRequestFrame] =
        ([versionRequestFrame, versionRequestFrame], .error .noVersionResponse) :=
      get_openrover_version_loop_late 0 r' tl [versionRequestFrame] hd'
    rw [get_openrover_version, e1, e2]
  · intro r hinc hd hk
    subst hinc
    have e1 : get_openrover_version_loop 2 [r] [] =
        get_openrover_version_loop 1 [] [versionRequestFrame] :=
      get_openrover_version_loop_step 1 r [] [] hd hk
    have e2 : get_openrover_version_loop 1 [] [versionRequestFrame] =
        ([versionRequestFrame, versionRequestFrame], .error .noVersionResponse) :=
      get_openrover_version_loop_empty 0 [versionRequestFrame]
    rw [get_openrover_version, e1, e2]

/-- Witness for C5 (amended): a timely key-40 response with value 7 makes the
probe return that version value, both when it answers the first read and when
it answers the retry after a timely key-14 response. -/
theorem get_openrover_version_spec_witness :
    (get_openrover_version [⟨0, 40, 7⟩]).2 = .ok (some 7) ∧
    (get_openrover_version [⟨0, 14, 0⟩, ⟨0, 40, 7⟩]).2 = .ok (some 7) :=
  ⟨(get_openrover_version_spec [⟨0, 40, 7⟩]).2.2.2.1 ⟨0, 40, 7⟩ [] rfl
      (by decide) rfl,
   (get_openrover_version_spec [⟨0, 14, 0⟩, ⟨0, 40, 7⟩]).2.2.2.2.1
      ⟨0, 14, 0⟩ ⟨0, 40, 7⟩ [] rfl (by decide) (by decide) (by decide) rfl⟩

/-- C6: the CLI settings-argument parser accepts exactly the strings `"k:v"`
holding a single colon with `k` parsing to an integer in the settings-verb
range 3–8 and `v` parsing to an integer in 0–255, returning the `(k, v)`
pair; every other input — verb outside 3–8, value outside 0–255, or a
malformed string — is a `ValueError` (modelled as `none`).  Concrete
instances: accepted bounds, rejected verb 2 and 9, rejected values 256 and
-1, rejected double colon, no colon, and non-numeric fields. -/
theorem rover_command_arg_pair_spec :
    (∀ (arg : List Char) (k v : ℤ),
      Pitstop.rover_command_arg_pair arg = some (k, v) ↔
        ((∃ ks vs, Pitstop.splitOnColon arg = [ks, vs] ∧
            Pitstop.parseInt ks = some k ∧ Pitstop.parseInt vs = some v) ∧
          3 ≤ k ∧ k ≤ 8 ∧ 0 ≤ v ∧ v ≤ 255)) ∧
    Pitstop.rover_command_arg_pair "5:128".data = some (5, 128) ∧
    Pitstop.rover_command_arg_pair "3:0".data = some (3, 0) ∧
    Pitstop.rover_command_arg_pair "8:255".data = some (8, 255) ∧
    Pitstop.rover_command_arg_pair "2:5".data = none ∧
    Pitstop.rover_command_arg_pair "9:5".data = none ∧
    Pitstop.rover_command_arg_pair "5:256".data = none ∧
    Pitstop.rover_command_arg_pair "5:-1".data = none ∧
    Pitstop.rover_command_arg_pair "5:1:2".data = none ∧
    Pitstop.rover_command_arg_pair "fan".data = none ∧
    Pitstop.rover_command_arg_pair "5:x".data = none := by
  have hmem : ∀ k : ℤ, k ∈ Pitstop.SETTINGS_VERBS ↔ 3 ≤ k ∧ k ≤ 8 := by
    intro k
    simp only [Pitstop.SETTINGS_VERBS, List.mem_cons, List.not_mem_nil, or_false]
    omega
  refine ⟨?_, by decide, by decide, by decide, by decide, by decide, by decide,
    by decide, by decide, by decide, by decide⟩
  intro arg k v
  constructor
  · intro h
    rcases hsplit : Pitstop.splitOnColon arg with _ | ⟨ks, _ | ⟨vs, _ | ⟨x, rest⟩⟩⟩
    · simp [Pitstop.rover_command_arg_pair, hsplit] at h
    · simp [Pitstop.rover_command_arg_pair, hsplit] at h
    · rcases hk : Pitstop.parseInt ks with _ | k'
      · simp [Pitstop.rover_command_arg_pair, hsplit, hk] at h
      · rcases hv : Pitstop.parseInt vs with _ | v'
        · simp [Pitstop.rover_command_arg_pair, hsplit, hk, hv] at h
        · simp only [Pitstop.rover_command_arg_pair, hsplit, hk, hv] at h
          split_ifs at h with h1 h2
          · obtain ⟨rfl, rfl⟩ := Prod.mk.inj (Option.some.inj h)
            exact ⟨⟨ks, vs, rfl, hk, hv⟩, ((hmem k').1 h1).1, ((hmem k').1 h1).2,
              h2.1, h2.2⟩
    · simp [Pitstop.rover_command_arg_pair, hsplit] at h
  · rintro ⟨⟨ks, vs, hsplit, hk, hv⟩, h3, h8, h0, h255⟩
    simp only [Pitstop.rover_command_arg_pair, hsplit, hk, hv]
    rw [if_pos ((hmem k).2 ⟨h3, h8⟩), if_pos ⟨h0, h255⟩]

/-- C8: with at least one action requested, the CLI process exits with status
0 when all requested actions succeed, and with status 1 on any unmet
precondition: no candidate device found when no port was given, a firmware
file that does not exist, a reported version below the requested minimum, or
no (valid) version response.  (With no action requested, `parser.error` exits
with argparse's status 2 instead.) -/
theorem amain_exit_codes (args : Pitstop.CliArgs) (env : Pitstop.CliEnv)
    (hact : ¬(args.flash.isNone ∧ args.minimumversion.isNone ∧ args.updatesettings = [])) :
    (args.port = none → env.ftdiPorts = [] → Pitstop.amain args env = 1) ∧
    (∀ f, args.flash = some f → env.fileExists f = false → Pitstop.amain args env = 1) ∧
    (∀ minv, args.minimumversion = some minv → env.versionResponse = none →
      Pitstop.amain args env = 1) ∧
    (∀ minv k v1, args.minimumversion = some minv → env.versionResponse = some (k, v1) →
      k ≠ 40 → Pitstop.amain args env = 1) ∧
    (∀ minv v1, args.minimumversion = some minv → env.versionResponse = some (40, v1) →
      v1 < minv → Pitstop.amain args env = 1) ∧
    (¬(args.port = none ∧ env.ftdiPorts = []) →
      (∀ f, args.flash = some f → env.fileExists f = true ∧ env.bootloadOk = true) →
      (∀ minv, args.minimumversion = some minv →
        ∃ v1, env.versionResponse = some (40, v1) ∧ minv ≤ v1) →
      Pitstop.amain args env = 0) := by
  have hact' : ¬(args.flash = none ∧ args.minimumversion = none ∧ args.updatesettings = []) := by
    simpa [Option.isNone_iff_eq_none] using hact
  refine ⟨?_, ?_, ?_, ?_, ?_, ?_⟩
  · intro hport hports
    simp [Pitstop.amain, hact', hport, hports]
  · intro f hflash hfile
    by_cases hp : args.port.isNone ∧ env.ftdiPorts = []
    · simp [Pitstop.amain, hact', hp]
    · simp [Pitstop.amain, hact', hp, Pitstop.flashStep, hflash, hfile]
  · intro minv hminv hvr
    by_cases hp : args.port.isNone ∧ env.ftdiPorts = []
    · simp [Pitstop.amain, hact', hp]
    · rcases flashStep_cases args.flash env with hf | hf <;>
        simp [Pitstop.amain, hact', hp, hf, Pitstop.versionStep, hminv, hvr]
  · intro minv k v1 hminv hvr hk
    by_cases hp : args.port.isNone ∧ env.ftdiPorts = []
    · simp [Pitstop.amain, hact', hp]
    · rcases flashStep_cases args.flash env with hf | hf <;>
        simp [Pitstop.amain, hact', hp, hf, Pitstop.versionStep, hminv, hvr, hk]
  · intro minv v1 hminv hvr hlt
    by_cases hp : args.port.isNone ∧ env.ftdiPorts = []
    · simp [Pitstop.amain, hact', hp]
    · rcases flashStep_cases args.flash env with hf | hf <;>
        simp [Pitstop.amain, hact', hp, hf, Pitstop.versionStep, hminv, hvr, hlt]
  · intro hp hflash hver
    have hfs : Pitstop.flashStep args.flash env = none := by
      rcases hfl : args.flash with _ | f
      · rfl
      · obtain ⟨hfe, hbo⟩ := hflash f hfl
        simp [Pitstop.flashStep, hfe, hbo]
    have hvs : Pitstop.versionStep args.minimumversion env = none := by
      rcases hmv : args.minimumversion with _ | minv
      · rfl
      · obtain ⟨v1, hvr, hle⟩ := hver minv hmv
        simp [Pitstop.versionStep, hvr, Nat.not_lt.2 hle]
    simp [Pitstop.amain, hact', hp, hfs, hvs]

/-- Witness for C8: with a port given, no flash requested, and a minimum
version of 2 against a reported version of 1, the process exits with
status 1. -/
theorem amain_exit_codes_witness :
    Pitstop.amain ⟨some "p", none, some 2, []⟩
      ⟨[], fun _ => false, true, some (40, 1)⟩ = 1 :=
  (amain_exit_codes ⟨some "p", none, some 2, []⟩
      ⟨[], fun _ => false, true, some (40, 1)⟩ (by decide)).2.2.2.2.1
    2 1 rfl rfl (by decide)

end OpenRover
